import Mathlib

/-!
# blue-green-demo: the HTTP handlers of `app/main.go`

A shallow embedding of the four handlers (`rootHandler`, `healthHandler`,
`readyHandler`, `statsHandler`) and of the two package-level counters they
share.

* Go strings are byte sequences: `len s` is the number of bytes and `s[:n]`
  keeps the first `n` bytes.
* `requestCounter` is a `uint64` and `activeRequests` an `int64`; the atomic
  additions wrap at 64 bits, as Go integer arithmetic does.
* What a handler reads from outside the program (the clock, the random source,
  `os.Hostname`, the request) is an explicit argument of its model.
* Concurrent invocations of `rootHandler` are modelled by a step function on a
  pool of invocations, one step per atomic operation on the shared counters.
-/

namespace BlueGreen

/-! ## Go values -/

/-- A Go `string`: a sequence of bytes. -/
abbrev GoString := List UInt8

/-- UTF-8 encoding of one code point, the way Go source text stores string literals. -/
def utf8 (c : Char) : List UInt8 :=
  let n := c.toNat
  if n < 0x80 then [UInt8.ofNat n]
  else if n < 0x800 then [UInt8.ofNat (0xC0 + n / 64), UInt8.ofNat (0x80 + n % 64)]
  else if n < 0x10000 then
    [UInt8.ofNat (0xE0 + n / 4096), UInt8.ofNat (0x80 + n / 64 % 64), UInt8.ofNat (0x80 + n % 64)]
  else
    [UInt8.ofNat (0xF0 + n / 262144), UInt8.ofNat (0x80 + n / 4096 % 64),
     UInt8.ofNat (0x80 + n / 64 % 64), UInt8.ofNat (0x80 + n % 64)]

/-- A string literal of the source as a Go string. -/
def str (s : String) : GoString := s.data.flatMap utf8

/-- The verb `%d` of `fmt` on a non-negative integer: its decimal digits. -/
def fmtNat (n : Nat) : GoString := (Nat.toDigits 10 n).map (fun c => UInt8.ofNat c.toNat)

/-- Reduction of an integer to the range of `uint64`. -/
def wrapUint64 (n : Nat) : Nat := n % 2 ^ 64

/-- Reduction of an integer to the range of `int64` (two's complement). -/
def wrapInt64 (v : Int) : Int := (v + 2 ^ 63) % 2 ^ 64 - 2 ^ 63

/-- The call `atomic.AddUint64(&x, delta)`: the new value, which is also what is stored. -/
def atomicAddUint64 (x delta : Nat) : Nat := wrapUint64 (x + delta)

/-- The call `atomic.AddInt64(&x, delta)`: the new value, which is also what is stored. -/
def atomicAddInt64 (x delta : Int) : Int := wrapInt64 (x + delta)

/-- Function `getEnv` (lines 27-32); `environ` is `os.Getenv`, which gives the empty string for an
unset variable. -/
def getEnv (environ : GoString → GoString) (key defaultValue : GoString) : GoString :=
  let value := environ key
  if value ≠ [] then value else defaultValue

/-- The package variable `version` (line 15). -/
def version (environ : GoString → GoString) : GoString :=
  getEnv environ (str "APP_VERSION") (str "1.0.0")

/-! ## Shared state -/

/-- The mutable package variables: `requestCounter` (line 18, `uint64`) and
`activeRequests` (line 21, `int64`). `startTime` (line 24) is never written and is only
read through the clock expressions that the handlers receive as arguments. -/
structure Globals where
  requestCounter : Nat
  activeRequests : Int
deriving DecidableEq, Repr

/-- The state of a process that has served nothing yet. -/
def Globals.fresh : Globals := ⟨0, 0⟩

/-- The values both counters can hold. -/
def Globals.InRange (g : Globals) : Prop :=
  g.requestCounter < 2 ^ 64 ∧ -(2 ^ 63) ≤ g.activeRequests ∧ g.activeRequests < 2 ^ 63

instance (g : Globals) : Decidable g.InRange := by
  unfold Globals.InRange; infer_instance

/-! ## Replies -/

/-- What a handler hands to the `http.ResponseWriter`: the headers it set before the
status line went out, the status code, and the value given to the JSON encoder. -/
structure Reply (β : Type) where
  header : List (GoString × GoString)
  status : Nat
  body : β
deriving DecidableEq, Repr

/-- Constant `http.StatusOK`. -/
def StatusOK : Nat := 200

/-- Constant `http.StatusServiceUnavailable`. -/
def StatusServiceUnavailable : Nat := 503

/-- The header every 200 reply sets (lines 47, 96, 116, 136). -/
def jsonHeader : List (GoString × GoString) := [(str "Content-Type", str "application/json")]

/-- The struct `Response` (lines 35-43). `Timestamp` is a clock reading. -/
structure Response where
  Version : GoString
  Hostname : GoString
  ContainerID : GoString
  Timestamp : Int
  Uptime : GoString
  Requests : Nat
  Message : GoString
deriving DecidableEq, Repr

/-- The map literal of `statsHandler` (lines 127-134), one field per key. -/
structure Stats where
  version : GoString
  hostname : GoString
  uptime : GoString
  total_requests : Nat
  active_requests : Int
  started_at : GoString
deriving DecidableEq, Repr

/-- The two results of `os.Hostname()`. `err` is `none` for a nil error. -/
structure HostnameResult where
  name : GoString
  err : Option GoString
deriving DecidableEq, Repr

/-! ## healthHandler (lines 46-56) -/

/-- Handler `healthHandler`: status 200 and the map `{status: healthy, version: version}`. -/
def healthHandler (version : GoString) (g : Globals) :
    Globals × Reply (List (GoString × GoString)) :=
  (g, { header := jsonHeader, status := StatusOK,
        body := [(str "status", str "healthy"), (str "version", version)] })

/-! ## readyHandler (lines 105-121) -/

/-- Constant `time.Second` in nanoseconds, the unit of `time.Duration`. -/
def Second : Int := 1000000000

/-- Constant `time.Millisecond` in nanoseconds. -/
def Millisecond : Int := 1000000

/-- Handler `readyHandler`; `elapsed` is `time.Since(startTime)`, a `time.Duration`. -/
def readyHandler (g : Globals) (elapsed : Int) :
    Globals × Reply (List (GoString × GoString)) :=
  if elapsed < 5 * Second then
    (g, { header := [], status := StatusServiceUnavailable,
          body := [(str "status", str "not ready"), (str "reason", str "warming up")] })
  else
    (g, { header := jsonHeader, status := StatusOK,
          body := [(str "status", str "ready")] })

/-! ## statsHandler (lines 124-138) -/

/-- What one call of `statsHandler` reads from outside the program. -/
structure StatsCall where
  /-- result of `os.Hostname()` -/
  hostname : HostnameResult
  /-- text of `time.Since(startTime).Round(time.Second).String()` -/
  uptime : GoString
  /-- text of `startTime.Format(time.RFC3339)` -/
  startedAt : GoString
deriving DecidableEq, Repr

/-- Handler `statsHandler`: the error of `os.Hostname()` is discarded (line 125), no status is
set, so the first write sends 200. -/
def statsHandler (version : GoString) (g : Globals) (c : StatsCall) :
    Globals × Reply Stats :=
  let hostname := c.hostname.name
  (g, { header := jsonHeader, status := StatusOK,
        body := { version := version
                  hostname := hostname
                  uptime := c.uptime
                  total_requests := g.requestCounter
                  active_requests := g.activeRequests
                  started_at := c.startedAt } })

/-! ## rootHandler (lines 59-102) -/

/-- What one call of `rootHandler` reads from outside the program. -/
structure RootCall where
  /-- value of `r.Method` -/
  method : GoString
  /-- value of `r.URL.Path` -/
  path : GoString
  /-- result of `rand.Intn(4000)` -/
  intn : Nat
  /-- result of `os.Hostname()` -/
  hostname : HostnameResult
  /-- text of `time.Since(startTime).Round(time.Second).String()` -/
  uptime : GoString
  /-- reading of `time.Now()` -/
  now : Int
deriving DecidableEq, Repr

/-- Line 61: `atomic.AddInt64(&activeRequests, 1)`. -/
def rootEnter (g : Globals) : Globals :=
  { g with activeRequests := atomicAddInt64 g.activeRequests 1 }

/-- Line 65: `count := atomic.AddUint64(&requestCounter, 1)`. -/
def rootCount (g : Globals) : Globals × Nat :=
  let count := atomicAddUint64 g.requestCounter 1
  ({ g with requestCounter := count }, count)

/-- Line 62, run when the handler returns: `atomic.AddInt64(&activeRequests, -1)`. -/
def rootExit (g : Globals) : Globals :=
  { g with activeRequests := atomicAddInt64 g.activeRequests (-1) }

/-- Line 68: `delayMs := rand.Intn(4000) + 1000`. -/
def delayMs (c : RootCall) : Nat := c.intn + 1000

/-- Lines 72-75: the hostname, or the literal `unknown` when `os.Hostname` failed. -/
def resolveHostname (h : HostnameResult) : GoString :=
  if h.err.isSome then str "unknown" else h.name

/-- Lines 78-81: the shortened container identifier. -/
def containerID (hostname : GoString) : GoString :=
  if hostname.length > 12 then hostname.take 12 else hostname

/-- Line 93: the message of the response. -/
def message (containerID version : GoString) (delayMs : Nat) : GoString :=
  str "Hello from container " ++ containerID ++ str " (version " ++ version ++
    str ") - delayed " ++ fmtNat delayMs ++ str "ms"

/-- Line 101: the access log record. -/
def accessLog (containerID method path : GoString) (count delayMs : Nat) : GoString :=
  str "[" ++ containerID ++ str "] " ++ method ++ str " " ++ path ++
    str " - Request #" ++ fmtNat count ++ str " (delayed " ++ fmtNat delayMs ++ str "ms)"

/-- What the body of `rootHandler` does between the two updates of `activeRequests`,
apart from the counter update: the sleep, the reply and the log record. -/
structure RootEffects where
  /-- the argument of `time.Sleep`, in nanoseconds -/
  slept : Int
  reply : Reply Response
  logged : GoString
deriving DecidableEq, Repr

/-- Lines 67-101 for a call that obtained the sequence number `count`. -/
def rootBody (version : GoString) (c : RootCall) (count : Nat) : RootEffects :=
  let delayMs := delayMs c
  let slept := wrapInt64 (wrapInt64 (delayMs : Int) * Millisecond)
  let hostname := resolveHostname c.hostname
  let containerID := containerID hostname
  let response : Response :=
    { Version := version
      Hostname := hostname
      ContainerID := containerID
      Timestamp := c.now
      Uptime := c.uptime
      Requests := count
      Message := message containerID version delayMs }
  { slept := slept
    reply := { header := jsonHeader, status := StatusOK, body := response }
    logged := accessLog containerID c.method c.path count delayMs }

/-- One whole invocation of `rootHandler` with nothing interleaved. -/
def rootHandler (version : GoString) (g : Globals) (c : RootCall) : Globals × RootEffects :=
  let g1 := rootEnter g
  let (g2, count) := rootCount g1
  let effects := rootBody version c count
  (rootExit g2, effects)

/-! ## Sequences of whole invocations -/

/-- One request to the server, with what its handler reads from outside. -/
inductive Call where
  | root (c : RootCall)
  | health
  | ready (elapsed : Int)
  | stats (c : StatsCall)
deriving DecidableEq, Repr

/-- Whether the request goes to `rootHandler`. -/
def Call.isRoot : Call → Bool
  | .root _ => true
  | _ => false

/-- The shared state after the handler of one request has run to its end. -/
def serve (version : GoString) (g : Globals) : Call → Globals
  | .root c => (rootHandler version g c).1
  | .health => (healthHandler version g).1
  | .ready elapsed => (readyHandler g elapsed).1
  | .stats c => (statsHandler version g c).1

/-- The shared state after a sequence of requests served one after the other, from `g`. -/
def serveAll (version : GoString) (g : Globals) (calls : List Call) : Globals :=
  calls.foldl (serve version) g

/-- The number of requests of the sequence that went to `rootHandler`. -/
def rootCalls (calls : List Call) : Nat := calls.countP Call.isRoot

/-! ## Concurrent invocations of rootHandler

Every invocation touches the shared counters three times, each time by one atomic
operation: line 61, line 65, and the deferred call of line 62. Between these it works on
its own local variables only. A state of the pool records how far each invocation has got;
a schedule names, step by step, the invocation that performs its next atomic operation. -/

/-- How far one invocation of `rootHandler` has got. -/
inductive Phase where
  /-- not yet at line 61 -/
  | pending
  /-- past line 61, not yet at line 65 -/
  | entered
  /-- past line 65, holding the sequence number `count`, the deferred call not yet run -/
  | counted (count : Nat)
  /-- returned: the reply carried `count` and the deferred call has run -/
  | finished (count : Nat)
deriving DecidableEq, Repr

/-- The next atomic operation of an invocation; one that has returned does nothing. -/
def advance (g : Globals) : Phase → Globals × Phase
  | .pending => (rootEnter g, .entered)
  | .entered => ((rootCount g).1, .counted (rootCount g).2)
  | .counted count => (rootExit g, .finished count)
  | .finished count => (g, .finished count)

/-- The shared counters and the invocations in progress. -/
structure Pool where
  globals : Globals
  threads : List Phase
deriving DecidableEq, Repr

/-- Invocation `i` performs its next atomic operation. -/
def Pool.step (s : Pool) (i : Nat) : Pool :=
  match s.threads.get? i with
  | none => s
  | some p => { globals := (advance s.globals p).1, threads := s.threads.set i (advance s.globals p).2 }

/-- The pool after a schedule. -/
def Pool.run (s : Pool) (schedule : List Nat) : Pool := schedule.foldl Pool.step s

/-- The pool of `n` invocations none of which has started. -/
def Pool.start (g : Globals) (n : Nat) : Pool := ⟨g, List.replicate n Phase.pending⟩

/-- Whether the invocation is between its increment and its decrement of `activeRequests`. -/
def Phase.inFlight : Phase → Bool
  | .entered => true
  | .counted _ => true
  | _ => false

/-- Whether the invocation has returned. -/
def Phase.isFinished : Phase → Bool
  | .finished _ => true
  | _ => false

/-- The sequence number the invocation obtained at line 65, once it has. -/
def Phase.count? : Phase → Option Nat
  | .counted count => some count
  | .finished count => some count
  | _ => none

/-- The number of invocations that have entered and not yet exited. -/
def Pool.inFlight (s : Pool) : Nat := s.threads.countP Phase.inFlight

/-- Whether every invocation of the pool has returned. -/
def Pool.allFinished (s : Pool) : Bool := s.threads.all Phase.isFinished

/-- The sequence numbers handed out so far, in the order of the invocations. -/
def Pool.issued (s : Pool) : List Nat := s.threads.filterMap Phase.count?

/-- The schedule that runs the invocations `0 .. n-1` one after the other, each to its end. -/
def sequentialSchedule (n : Nat) : List Nat := (List.range n).flatMap (fun i => [i, i, i])

/-! ## Invariants of the pool -/

/-- The `j`-th sequence number handed out after the counter held `c₀`. -/
def seqNumber (c₀ j : Nat) : Nat := (c₀ + j + 1) % 2 ^ 64

/-- The in-flight counter follows the number of invocations in flight, from the value `a₀`
it had when none was. -/
def Pool.ActiveInv (a₀ : Int) (s : Pool) : Prop :=
  s.globals.activeRequests = wrapInt64 (a₀ + s.inFlight)

/-- The request counter follows the number of sequence numbers handed out, from the value
`c₀` it had before, and the numbers handed out are the first ones after `c₀`. -/
def Pool.CountInv (c₀ : Nat) (s : Pool) : Prop :=
  s.globals.requestCounter = (c₀ + s.issued.length) % 2 ^ 64 ∧
  s.issued.Perm ((List.range s.issued.length).map (seqNumber c₀))

/-! ## Sample inputs -/

/-- A `GET /` request served on a host named `abcdefghijklmnop`, with random draw 17. -/
def sampleRootCall : RootCall :=
  { method := str "GET", path := str "/", intn := 17,
    hostname := ⟨str "abcdefghijklmnop", none⟩, uptime := str "3s", now := 0 }

/-- A `GET /` request during which `os.Hostname` fails: it returns the empty name and an
error. -/
def failedHostnameRootCall : RootCall :=
  { sampleRootCall with hostname := ⟨[], some (str "uname: function not implemented")⟩ }

/-- A `GET /stats` request during which `os.Hostname` fails in the same way. -/
def failedHostnameStatsCall : StatsCall :=
  { hostname := ⟨[], some (str "uname: function not implemented")⟩,
    uptime := str "3s", startedAt := str "2024-01-01T00:00:00Z" }

/-- A hostname of 8 characters that takes 15 bytes: the letter `a` and seven times the
two-byte letter `é`. -/
def accentedHostname : String := "aééééééé"

/-- A `GET /` request served on the host named `accentedHostname`. -/
def accentedRootCall : RootCall :=
  { sampleRootCall with hostname := ⟨str accentedHostname, none⟩ }

/-- A `GET /stats` request on a host named `abcdefghijklmnop`. -/
def sampleStatsCall : StatsCall :=
  { hostname := ⟨str "abcdefghijklmnop", none⟩,
    uptime := str "3s", startedAt := str "2024-01-01T00:00:00Z" }

/-! ## Arithmetic of the 64-bit counters -/

theorem wrapUint64_lt (n : Nat) : wrapUint64 n < 2 ^ 64 := by
  unfold wrapUint64; omega

theorem wrapUint64_of_lt {n : Nat} (h : n < 2 ^ 64) : wrapUint64 n = n := by
  unfold wrapUint64; omega

theorem wrapInt64_range (v : Int) : -(2 ^ 63) ≤ wrapInt64 v ∧ wrapInt64 v < 2 ^ 63 := by
  unfold wrapInt64; omega

theorem wrapInt64_of_range {v : Int} (h₁ : -(2 ^ 63) ≤ v) (h₂ : v < 2 ^ 63) :
    wrapInt64 v = v := by
  unfold wrapInt64; omega

theorem wrapInt64_add_wrap (v d : Int) : wrapInt64 (wrapInt64 v + d) = wrapInt64 (v + d) := by
  unfold wrapInt64; omega

/-! ## The container identifier -/

theorem containerID_eq_take (h : GoString) : containerID h = h.take 12 := by
  unfold containerID
  split
  · rfl
  · rw [List.take_of_length_le (by omega)]

theorem utf8_of_ascii (ch : Char) (h : ch.toNat < 128) : utf8 ch = [UInt8.ofNat ch.toNat] := by
  unfold utf8
  simp only
  rw [if_pos (by omega)]

theorem str_mk_of_ascii :
    ∀ cs : List Char, (∀ ch ∈ cs, ch.toNat < 128) →
      str (String.mk cs) = cs.map (fun ch => UInt8.ofNat ch.toNat)
  | [], _ => rfl
  | ch :: cs, h => by
    have ih := str_mk_of_ascii cs (fun x hx => h x (List.mem_cons_of_mem ch hx))
    unfold str at ih ⊢
    simp only [List.flatMap_cons, List.map_cons]
    rw [utf8_of_ascii ch (h ch (List.mem_cons_self ch cs)), ih]
    rfl

theorem containerID_of_ascii (cs : List Char) (h : ∀ ch ∈ cs, ch.toNat < 128) :
    containerID (str (String.mk cs)) = str (String.mk (cs.take 12)) := by
  rw [containerID_eq_take, str_mk_of_ascii cs h,
    str_mk_of_ascii (cs.take 12) (fun x hx => h x (List.mem_of_mem_take hx)), List.map_take]

/-- C1 as stated fails for a hostname with characters of more than one byte: the hostname
`aééééééé` has 8 characters, which is not more than 12, but 15 bytes, and `rootHandler`
does not report it unchanged: it reports its first 12 bytes, which end in the middle of the
sixth `é` and are not the bytes of any number of its leading characters. -/
theorem C1_container_id_cuts_bytes :
    accentedHostname.length = 8 ∧
    (str accentedHostname).length = 15 ∧
    (rootHandler (str "1.0.0") Globals.fresh accentedRootCall).2.reply.body.Hostname =
      str accentedHostname ∧
    (rootHandler (str "1.0.0") Globals.fresh accentedRootCall).2.reply.body.ContainerID ≠
      str accentedHostname ∧
    (rootHandler (str "1.0.0") Globals.fresh accentedRootCall).2.reply.body.ContainerID =
      (str accentedHostname).take 12 ∧
    (rootHandler (str "1.0.0") Globals.fresh accentedRootCall).2.reply.body.ContainerID =
      str "aééééé" ++ [0xC3] ∧
    (∀ k, k ≤ 8 →
      (rootHandler (str "1.0.0") Globals.fresh accentedRootCall).2.reply.body.ContainerID ≠
        str (String.mk (accentedHostname.data.take k))) := by
  decide

/-- C1, amended: the container identifier that `rootHandler` puts in its response is the
first 12 bytes of the hostname it reports when that hostname is longer than 12 bytes, and
the hostname itself when it has 12 bytes or fewer; it is always a prefix, byte for byte, of
the hostname and has at most 12 bytes. Bytes are the unit in which `len` counts and `[:12]`
cuts. For a hostname written in ASCII characters only, bytes are characters, and the
identifier is the text of its first 12 characters. The reported hostname is the one
`os.Hostname` returned whenever it returned without error. The two hostnames of the
specification give `abcdefghijkl` and `short`. -/
theorem C1_container_id_is_short_hostname (version : GoString) (g : Globals) (c : RootCall)
    (h : GoString) :
    (rootHandler version g { c with hostname := ⟨h, none⟩ }).2.reply.body.Hostname = h ∧
    (12 < (rootHandler version g c).2.reply.body.Hostname.length →
      (rootHandler version g c).2.reply.body.ContainerID =
        (rootHandler version g c).2.reply.body.Hostname.take 12) ∧
    ((rootHandler version g c).2.reply.body.Hostname.length ≤ 12 →
      (rootHandler version g c).2.reply.body.ContainerID =
        (rootHandler version g c).2.reply.body.Hostname) ∧
    (rootHandler version g c).2.reply.body.ContainerID <+:
      (rootHandler version g c).2.reply.body.Hostname ∧
    (rootHandler version g c).2.reply.body.ContainerID.length ≤ 12 ∧
    (∀ cs : List Char, (∀ ch ∈ cs, ch.toNat < 128) →
      (rootHandler version g
          { c with hostname := ⟨str (String.mk cs), none⟩ }).2.reply.body.ContainerID =
        str (String.mk (cs.take 12))) ∧
    (rootHandler version g
        { c with hostname := ⟨str "abcdefghijklmnop", none⟩ }).2.reply.body.ContainerID =
      str "abcdefghijkl" ∧
    (rootHandler version g
        { c with hostname := ⟨str "short", none⟩ }).2.reply.body.ContainerID = str "short" := by
  refine ⟨rfl, ?_, ?_, ?_, ?_, ?_, ?_, ?_⟩
  · intro _
    exact containerID_eq_take _
  · intro hle
    exact (containerID_eq_take _).trans (List.take_of_length_le hle)
  · show containerID _ <+: _
    rw [containerID_eq_take]
    exact List.take_prefix _ _
  · show (containerID _).length ≤ 12
    rw [containerID_eq_take, List.length_take]
    omega
  · intro cs hcs
    exact containerID_of_ascii cs hcs
  · show containerID (str "abcdefghijklmnop") = str "abcdefghijkl"
    decide
  · show containerID (str "short") = str "short"
    decide

/-- C1, at concrete hostnames: a 16-byte hostname is cut to its first 12 bytes and a 5-byte
hostname is kept. -/
theorem C1_container_id_witness :
    (rootHandler (str "1.0.0") Globals.fresh
        ⟨str "GET", str "/", 0, ⟨str "abcdefghijklmnop", none⟩, str "0s", 0⟩).2.reply.body.ContainerID
      = str "abcdefghijkl" ∧
    (rootHandler (str "1.0.0") Globals.fresh
        ⟨str "GET", str "/", 0, ⟨str "short", none⟩, str "0s", 0⟩).2.reply.body.ContainerID
      = str "short" :=
  ⟨(C1_container_id_is_short_hostname (str "1.0.0") Globals.fresh
      ⟨str "GET", str "/", 0, ⟨str "abcdefghijklmnop", none⟩, str "0s", 0⟩ []).2.1 (by decide),
   (C1_container_id_is_short_hostname (str "1.0.0") Globals.fresh
      ⟨str "GET", str "/", 0, ⟨str "short", none⟩, str "0s", 0⟩ []).2.2.1 (by decide)⟩

/-! ## Readiness -/

theorem readyHandler_of_lt (g : Globals) {t : Int} (h : t < 5 * Second) :
    readyHandler g t =
      (g, { header := [], status := StatusServiceUnavailable,
            body := [(str "status", str "not ready"), (str "reason", str "warming up")] }) := by
  unfold readyHandler; rw [if_pos h]

theorem readyHandler_of_le (g : Globals) {t : Int} (h : 5 * Second ≤ t) :
    readyHandler g t =
      (g, { header := jsonHeader, status := StatusOK, body := [(str "status", str "ready")] }) := by
  unfold readyHandler; rw [if_neg (by omega)]

theorem ready_status_ok_iff (g : Globals) (t : Int) :
    (readyHandler g t).2.status = 200 ↔ 5 * Second ≤ t := by
  by_cases h : t < 5 * Second
  · rw [readyHandler_of_lt g h]
    constructor
    · intro h'
      have h503 : (503 : Nat) = 200 := h'
      omega
    · intro h'; omega
  · rw [readyHandler_of_le g (by omega)]
    constructor
    · intro _; omega
    · intro _; rfl

/-- C2: for every elapsed time `t` (in nanoseconds, the unit of `time.Duration`),
`readyHandler` answers 503 with `{status: not ready, reason: warming up}` when `t` is less
than 5 seconds, and 200 with `{status: ready}` when `t` is greater than 5 seconds. -/
theorem C2_ready_before_and_after_five_seconds (g : Globals) (t : Int) :
    (t < 5 * Second →
      (readyHandler g t).2.status = 503 ∧
      (readyHandler g t).2.body =
        [(str "status", str "not ready"), (str "reason", str "warming up")]) ∧
    (5 * Second < t →
      (readyHandler g t).2.status = 200 ∧
      (readyHandler g t).2.body = [(str "status", str "ready")]) := by
  constructor
  · intro h
    rw [readyHandler_of_lt g h]
    exact ⟨rfl, rfl⟩
  · intro h
    rw [readyHandler_of_le g (by omega)]
    exact ⟨rfl, rfl⟩

/-- C2 at one second and at six seconds after process start. -/
theorem C2_ready_witness :
    ((readyHandler Globals.fresh (1 * Second)).2.status = 503 ∧
      (readyHandler Globals.fresh (1 * Second)).2.body =
        [(str "status", str "not ready"), (str "reason", str "warming up")]) ∧
    ((readyHandler Globals.fresh (6 * Second)).2.status = 200 ∧
      (readyHandler Globals.fresh (6 * Second)).2.body = [(str "status", str "ready")]) :=
  ⟨(C2_ready_before_and_after_five_seconds Globals.fresh (1 * Second)).1 (by decide),
   (C2_ready_before_and_after_five_seconds Globals.fresh (6 * Second)).2 (by decide)⟩

/-- C8: readiness is monotone in the elapsed time and depends on nothing else. If
`readyHandler` answers 200 at `t` then it answers 200 at every `t' ≥ t`, whatever the
counters are at either call; its reply at a given elapsed time is the same for all values
of the counters, and it leaves the counters as they were. -/
theorem C8_ready_is_monotone (g g' : Globals) (t t' : Int) (hle : t ≤ t')
    (hready : (readyHandler g t).2.status = 200) :
    (readyHandler g' t').2.status = 200 ∧
    (readyHandler g t').2 = (readyHandler g' t').2 ∧
    (readyHandler g t).2 = (readyHandler g' t).2 ∧
    (readyHandler g t).1 = g ∧ (readyHandler g' t').1 = g' := by
  have ht : 5 * Second ≤ t := (ready_status_ok_iff g t).1 hready
  have ht' : 5 * Second ≤ t' := by omega
  rw [readyHandler_of_le g ht, readyHandler_of_le g ht', readyHandler_of_le g' ht',
    readyHandler_of_le g' ht]
  exact ⟨rfl, rfl, rfl, rfl, rfl⟩

/-- C8 from 5 seconds to 9 seconds, with different counter values at the two calls. -/
theorem C8_ready_monotone_witness :
    (readyHandler ⟨7, 2⟩ (9 * Second)).2.status = 200 ∧
    (readyHandler Globals.fresh (9 * Second)).2 = (readyHandler ⟨7, 2⟩ (9 * Second)).2 ∧
    (readyHandler Globals.fresh (5 * Second)).2 = (readyHandler ⟨7, 2⟩ (5 * Second)).2 ∧
    (readyHandler Globals.fresh (5 * Second)).1 = Globals.fresh ∧
    (readyHandler ⟨7, 2⟩ (9 * Second)).1 = ⟨7, 2⟩ :=
  C8_ready_is_monotone Globals.fresh ⟨7, 2⟩ (5 * Second) (9 * Second) (by decide) (by decide)

/-- C9 as stated fails: at an elapsed time of exactly 5 seconds `readyHandler` answers 200
with `{status: ready}`, not 503. -/
theorem C9_ready_at_exactly_five_seconds :
    (readyHandler Globals.fresh (5 * Second)).2.status = 200 ∧
    (readyHandler Globals.fresh (5 * Second)).2.status ≠ 503 ∧
    (readyHandler Globals.fresh (5 * Second)).2.body = [(str "status", str "ready")] := by
  decide

/-- C9, amended: `readyHandler` answers as warming-up (503, `not ready`) exactly when the
elapsed time is less than 5 seconds and as ready (200) exactly when it is 5 seconds or
more; the first elapsed time at which it answers ready is 5 seconds itself. -/
theorem C9_ready_threshold_is_inclusive (g : Globals) (t : Int) :
    ((readyHandler g t).2.status = 503 ↔ t < 5 * Second) ∧
    ((readyHandler g t).2.status = 200 ↔ 5 * Second ≤ t) ∧
    ((readyHandler g t).2.status = 503 ∨ (readyHandler g t).2.status = 200) ∧
    (readyHandler g (5 * Second)).2.status = 200 ∧
    (readyHandler g (5 * Second - 1)).2.status = 503 := by
  refine ⟨?_, ready_status_ok_iff g t, ?_, ?_, ?_⟩
  · by_cases h : t < 5 * Second
    · rw [readyHandler_of_lt g h]
      exact ⟨fun _ => h, fun _ => rfl⟩
    · rw [readyHandler_of_le g (by omega)]
      refine ⟨fun h' => ?_, fun h' => absurd h' h⟩
      have h200 : (200 : Nat) = 503 := h'
      omega
  · by_cases h : t < 5 * Second
    · rw [readyHandler_of_lt g h]; exact Or.inl rfl
    · rw [readyHandler_of_le g (by omega)]; exact Or.inr rfl
  · rw [readyHandler_of_le g (le_refl _)]; rfl
  · rw [readyHandler_of_lt g (by omega)]; rfl

/-! ## One invocation of rootHandler -/

theorem rootHandler_requestCounter (version : GoString) (g : Globals) (c : RootCall) :
    (rootHandler version g c).1.requestCounter = (g.requestCounter + 1) % 2 ^ 64 := rfl

theorem rootHandler_activeRequests (version : GoString) (g : Globals) (c : RootCall) :
    (rootHandler version g c).1.activeRequests = wrapInt64 g.activeRequests := by
  show wrapInt64 (wrapInt64 (g.activeRequests + 1) + -1) = _
  rw [wrapInt64_add_wrap]
  congr 1
  omega

/-- C3 as stated fails at the largest value of the `uint64` counter: from
`requestCounter = 2^64 - 1` one invocation of `rootHandler` leaves the counter at 0, which
is less than before, and reports 0 as `total_requests`. -/
theorem C3_counter_wraps_at_max :
    (rootHandler (str "1.0.0") ⟨2 ^ 64 - 1, 0⟩ sampleRootCall).1.requestCounter = 0 ∧
    (rootHandler (str "1.0.0") ⟨2 ^ 64 - 1, 0⟩ sampleRootCall).1.requestCounter
      ≠ (2 ^ 64 - 1) + 1 ∧
    (rootHandler (str "1.0.0") ⟨2 ^ 64 - 1, 0⟩ sampleRootCall).1.requestCounter < 2 ^ 64 - 1 ∧
    (rootHandler (str "1.0.0") ⟨2 ^ 64 - 1, 0⟩ sampleRootCall).2.reply.body.Requests = 0 := by
  decide

/-- C3, amended: one invocation of `rootHandler` leaves the counter at its previous value
plus one reduced modulo 2^64, and the `total_requests` field of its reply equals that
post-increment value. For every previous value below 2^64 - 1 the counter is therefore
exactly one greater than before; from 2^64 - 1 it goes to 0. -/
theorem C3_counter_incremented_once (version : GoString) (g : Globals) (c : RootCall) :
    (rootHandler version g c).1.requestCounter = (g.requestCounter + 1) % 2 ^ 64 ∧
    (rootHandler version g c).2.reply.body.Requests =
      (rootHandler version g c).1.requestCounter ∧
    (g.requestCounter < 2 ^ 64 - 1 →
      (rootHandler version g c).1.requestCounter = g.requestCounter + 1) ∧
    (g.requestCounter = 2 ^ 64 - 1 → (rootHandler version g c).1.requestCounter = 0) := by
  refine ⟨rfl, rfl, ?_, ?_⟩
  · intro h
    rw [rootHandler_requestCounter]
    omega
  · intro h
    rw [rootHandler_requestCounter]
    omega

/-- C3, amended, at a counter value of 41: the invocation leaves 42 and reports 42. -/
theorem C3_counter_incremented_witness :
    (rootHandler (str "1.0.0") ⟨41, 0⟩ sampleRootCall).1.requestCounter = 41 + 1 ∧
    (rootHandler (str "1.0.0") ⟨41, 0⟩ sampleRootCall).2.reply.body.Requests = 42 :=
  ⟨(C3_counter_incremented_once (str "1.0.0") ⟨41, 0⟩ sampleRootCall).2.2.1 (by decide),
   (C3_counter_incremented_once (str "1.0.0") ⟨41, 0⟩ sampleRootCall).2.1⟩

/-- C7 fails on the stats reply: when `os.Hostname` fails (it returns the empty name and an
error), `rootHandler` reports the hostname `unknown` with status 200, but `statsHandler`,
which discards the error, reports the empty name that came with it, not `unknown`; its
status is 200 as well. This holds for every error value, and in particular for the two
sample requests `failedHostnameRootCall` and `failedHostnameStatsCall`. -/
theorem C7_stats_hostname_not_substituted (version : GoString) (g : Globals)
    (msg : GoString) (rc : RootCall) (sc : StatsCall) :
    (rootHandler version g { rc with hostname := ⟨[], some msg⟩ }).2.reply.body.Hostname
      = str "unknown" ∧
    (rootHandler version g { rc with hostname := ⟨[], some msg⟩ }).2.reply.status = 200 ∧
    (statsHandler version g { sc with hostname := ⟨[], some msg⟩ }).2.body.hostname = [] ∧
    (statsHandler version g { sc with hostname := ⟨[], some msg⟩ }).2.body.hostname
      ≠ str "unknown" ∧
    (statsHandler version g { sc with hostname := ⟨[], some msg⟩ }).2.status = 200 ∧
    (rootHandler version g failedHostnameRootCall).2.reply.body.Hostname = str "unknown" ∧
    (statsHandler version g failedHostnameStatsCall).2.body.hostname = str "" ∧
    (statsHandler version g failedHostnameStatsCall).2.body.hostname ≠ str "unknown" := by
  have hne : ([] : GoString) ≠ str "unknown" := by decide
  exact ⟨rfl, rfl, rfl, hne, rfl, rfl, rfl, hne⟩

/-- C10: for every result `r < 4000` of the random source, the delay `r + 1000` lies in
`[1000, 5000)`, the handler sleeps that many milliseconds, and the message of the reply
ends with the decimal digits of the same number followed by `ms`; every integer of
`[1000, 5000)` is the delay of the draw `r = d - 1000`. -/
theorem C10_delay_between_one_and_five_seconds (version : GoString) (g : Globals) :
    (∀ c : RootCall, c.intn < 4000 →
      delayMs c = c.intn + 1000 ∧ 1000 ≤ delayMs c ∧ delayMs c < 5000 ∧
      (rootHandler version g c).2.slept = (delayMs c : Int) * Millisecond ∧
      (rootHandler version g c).2.reply.body.Message =
        str "Hello from container " ++ (rootHandler version g c).2.reply.body.ContainerID ++
          str " (version " ++ version ++ str ") - delayed " ++ fmtNat (delayMs c) ++ str "ms") ∧
    (∀ (c : RootCall) (d : Nat), 1000 ≤ d → d < 5000 →
      ∃ r, r < 4000 ∧ delayMs { c with intn := r } = d ∧
        (rootHandler version g { c with intn := r }).2.slept = (d : Int) * Millisecond) := by
  have hslept : ∀ c : RootCall, c.intn < 4000 →
      (rootHandler version g c).2.slept = (delayMs c : Int) * Millisecond := by
    intro c hc
    show wrapInt64 (wrapInt64 ((delayMs c : Nat) : Int) * Millisecond) = _
    have hd : ((delayMs c : Nat) : Int) = (c.intn : Int) + 1000 := by
      unfold delayMs; push_cast; rfl
    rw [hd]
    have h₁ : wrapInt64 ((c.intn : Int) + 1000) = (c.intn : Int) + 1000 :=
      wrapInt64_of_range (by omega) (by omega)
    rw [h₁]
    unfold Millisecond
    exact wrapInt64_of_range (by omega) (by omega)
  constructor
  · intro c hc
    refine ⟨rfl, ?_, ?_, hslept c hc, rfl⟩
    · unfold delayMs; omega
    · unfold delayMs; omega
  · intro c d h₁ h₂
    have hr : d - 1000 < 4000 := by omega
    have hd : delayMs { c with intn := d - 1000 } = d := Nat.sub_add_cancel h₁
    have hs := hslept { c with intn := d - 1000 } hr
    rw [hd] at hs
    exact ⟨d - 1000, hr, hd, hs⟩

/-- C10 at the draw 17: the handler sleeps 1017 ms and says so in its message; and the
delay 4999 is reached. -/
theorem C10_delay_witness :
    (delayMs sampleRootCall = 1017 ∧
      (rootHandler (str "1.0.0") Globals.fresh sampleRootCall).2.slept = 1017 * Millisecond ∧
      (rootHandler (str "1.0.0") Globals.fresh sampleRootCall).2.reply.body.Message =
        str "Hello from container abcdefghijkl (version 1.0.0) - delayed 1017ms") ∧
    (∃ r, r < 4000 ∧ delayMs { sampleRootCall with intn := r } = 4999) :=
  ⟨⟨((C10_delay_between_one_and_five_seconds (str "1.0.0") Globals.fresh).1
        sampleRootCall (by decide)).1,
    ((C10_delay_between_one_and_five_seconds (str "1.0.0") Globals.fresh).1
        sampleRootCall (by decide)).2.2.2.1,
    (((C10_delay_between_one_and_five_seconds (str "1.0.0") Globals.fresh).1
        sampleRootCall (by decide)).2.2.2.2).trans (by decide)⟩,
   (((C10_delay_between_one_and_five_seconds (str "1.0.0") Globals.fresh).2
        sampleRootCall 4999 (by decide) (by decide))).imp (fun _ h => ⟨h.1, h.2.1⟩)⟩

/-! ## Sequences of requests -/

theorem serve_of_not_isRoot (version : GoString) (g : Globals) (call : Call)
    (h : call.isRoot = false) : serve version g call = g := by
  cases call with
  | root c => simp [Call.isRoot] at h
  | health => rfl
  | ready elapsed =>
    show (readyHandler g elapsed).1 = g
    unfold readyHandler
    split <;> rfl
  | stats c => rfl

theorem serve_root_requestCounter (version : GoString) (g : Globals) (call : Call)
    (h : call.isRoot = true) :
    (serve version g call).requestCounter = (g.requestCounter + 1) % 2 ^ 64 ∧
    (serve version g call).activeRequests = wrapInt64 g.activeRequests := by
  cases call with
  | root c => exact ⟨rfl, rootHandler_activeRequests version g c⟩
  | health => simp [Call.isRoot] at h
  | ready elapsed => simp [Call.isRoot] at h
  | stats c => simp [Call.isRoot] at h

theorem serveAll_counters (version : GoString) (calls : List Call) :
    ∀ g : Globals, g.InRange →
      (serveAll version g calls).requestCounter = (g.requestCounter + rootCalls calls) % 2 ^ 64 ∧
      (serveAll version g calls).activeRequests = g.activeRequests := by
  induction calls with
  | nil =>
    intro g hg
    obtain ⟨h₁, -, -⟩ := hg
    refine ⟨?_, rfl⟩
    show g.requestCounter = (g.requestCounter + 0) % 2 ^ 64
    omega
  | cons call rest ih =>
    intro g hg
    obtain ⟨h₁, h₂, h₃⟩ := hg
    show (serveAll version (serve version g call) rest).requestCounter = _ ∧
      (serveAll version (serve version g call) rest).activeRequests = _
    by_cases hroot : call.isRoot = true
    · obtain ⟨hc, ha⟩ := serve_root_requestCounter version g call hroot
      rw [wrapInt64_of_range h₂ h₃] at ha
      have hin : (serve version g call).InRange := by
        refine ⟨?_, ?_, ?_⟩
        · rw [hc]; omega
        · rw [ha]; exact h₂
        · rw [ha]; exact h₃
      obtain ⟨ih₁, ih₂⟩ := ih _ hin
      have hcount : rootCalls (call :: rest) = rootCalls rest + 1 := by
        unfold rootCalls
        rw [List.countP_cons_of_pos _ _ hroot]
      rw [ih₁, ih₂, hc, ha, hcount]
      refine ⟨?_, rfl⟩
      omega
    · have hroot' : call.isRoot = false := by simpa using hroot
      rw [serve_of_not_isRoot version g call hroot']
      obtain ⟨ih₁, ih₂⟩ := ih g ⟨h₁, h₂, h₃⟩
      have hcount : rootCalls (call :: rest) = rootCalls rest := by
        unfold rootCalls
        rw [List.countP_cons_of_neg _ _ hroot]
      rw [ih₁, ih₂, hcount]
      exact ⟨rfl, rfl⟩

theorem fresh_inRange : Globals.fresh.InRange := by decide

theorem statsHandler_total_requests (version : GoString) (g : Globals) (sc : StatsCall) :
    (statsHandler version g sc).2.body.total_requests = g.requestCounter := rfl

theorem statsHandler_active_requests (version : GoString) (g : Globals) (sc : StatsCall) :
    (statsHandler version g sc).2.body.active_requests = g.activeRequests := rfl

theorem rootCalls_replicate_root (n : Nat) (c : RootCall) :
    rootCalls (List.replicate n (Call.root c)) = n := by
  unfold rootCalls
  induction n with
  | zero => rfl
  | succ k ih =>
    rw [List.replicate_succ, List.countP_cons_of_pos _ _ (by rfl), ih]

/-- C6 as stated fails for a sequence with 2^64 invocations of `rootHandler`: the `uint64`
counter is back at 0, so `statsHandler` reports 0 and not 2^64. -/
theorem C6_stats_total_wraps :
    (statsHandler (str "1.0.0")
        (serveAll (str "1.0.0") Globals.fresh
          (List.replicate (2 ^ 64) (Call.root sampleRootCall)))
        sampleStatsCall).2.body.total_requests = 0 ∧
    rootCalls (List.replicate (2 ^ 64) (Call.root sampleRootCall)) = 2 ^ 64 := by
  refine ⟨?_, rootCalls_replicate_root _ _⟩
  rw [statsHandler_total_requests, (serveAll_counters _ _ Globals.fresh fresh_inRange).1,
    rootCalls_replicate_root]
  exact Nat.mod_self _

/-- C6, amended: `healthHandler`, `readyHandler` and `statsHandler` leave both counters
unchanged, so for every sequence of handler invocations starting from a fresh process the
`total_requests` value reported by `statsHandler` equals the number of `rootHandler`
invocations earlier in the sequence reduced modulo 2^64 (the number itself whenever it is
below 2^64), whatever calls to the other endpoints are interleaved: dropping them from the
sequence changes neither counter. The reported `active_requests` is 0. -/
theorem C6_stats_reports_root_calls (version : GoString) (g : Globals) (calls : List Call)
    (elapsed : Int) (sc : StatsCall) :
    (healthHandler version g).1 = g ∧
    (readyHandler g elapsed).1 = g ∧
    (statsHandler version g sc).1 = g ∧
    (statsHandler version (serveAll version Globals.fresh calls) sc).2.body.total_requests =
      rootCalls calls % 2 ^ 64 ∧
    (rootCalls calls < 2 ^ 64 →
      (statsHandler version (serveAll version Globals.fresh calls) sc).2.body.total_requests =
        rootCalls calls) ∧
    serveAll version Globals.fresh calls =
      serveAll version Globals.fresh (calls.filter Call.isRoot) ∧
    (statsHandler version (serveAll version Globals.fresh calls) sc).2.body.active_requests
      = 0 := by
  have hcount := serveAll_counters version calls Globals.fresh fresh_inRange
  have hcount' := serveAll_counters version (calls.filter Call.isRoot) Globals.fresh
    fresh_inRange
  have hfresh : Globals.fresh.requestCounter + rootCalls calls = rootCalls calls :=
    Nat.zero_add _
  have hfilter : rootCalls (calls.filter Call.isRoot) = rootCalls calls := by
    unfold rootCalls
    rw [List.countP_filter]
    simp
  refine ⟨rfl, serve_of_not_isRoot version g (Call.ready elapsed) rfl, rfl, ?_, ?_, ?_, ?_⟩
  · rw [statsHandler_total_requests, hcount.1, hfresh]
  · intro hlt
    rw [statsHandler_total_requests, hcount.1, hfresh]
    omega
  · have h₁ : (serveAll version Globals.fresh calls).requestCounter =
        (serveAll version Globals.fresh (calls.filter Call.isRoot)).requestCounter := by
      rw [hcount.1, hcount'.1, hfilter]
    have h₂ : (serveAll version Globals.fresh calls).activeRequests =
        (serveAll version Globals.fresh (calls.filter Call.isRoot)).activeRequests := by
      rw [hcount.2, hcount'.2]
    cases hs : serveAll version Globals.fresh calls with
    | mk rc ar =>
      cases hs' : serveAll version Globals.fresh (calls.filter Call.isRoot) with
      | mk rc' ar' =>
        rw [hs, hs'] at h₁ h₂
        simp only at h₁ h₂
        rw [h₁, h₂]
  · rw [statsHandler_active_requests, hcount.2]
    rfl

/-- C6, amended, on the sequence root, health, stats, root, ready: a following
`statsHandler` reports 2. -/
theorem C6_stats_reports_witness :
    (statsHandler (str "1.0.0")
        (serveAll (str "1.0.0") Globals.fresh
          [Call.root sampleRootCall, Call.health, Call.stats sampleStatsCall,
           Call.root sampleRootCall, Call.ready (6 * Second)])
        sampleStatsCall).2.body.total_requests = 2 :=
  ((C6_stats_reports_root_calls (str "1.0.0") Globals.fresh
      [Call.root sampleRootCall, Call.health, Call.stats sampleStatsCall,
       Call.root sampleRootCall, Call.ready (6 * Second)] 0 sampleStatsCall).2.2.2.2.1
    (by decide)).trans (by decide)

/-! ## Lists with one element replaced -/

theorem countP_set_of_get? {α : Type} (f : α → Bool) :
    ∀ (l : List α) (i : Nat) (p q : α), l.get? i = some p →
      (l.set i q).countP f + (if f p then 1 else 0) = l.countP f + (if f q then 1 else 0)
  | [], i, p, q, h => by simp at h
  | x :: l, 0, p, q, h => by
    simp only [List.get?_cons_zero, Option.some.injEq] at h
    subst h
    simp only [List.set_cons_zero, List.countP_cons]
    omega
  | x :: l, i + 1, p, q, h => by
    have ih := countP_set_of_get? f l i p q (by simpa using h)
    simp only [List.set_cons_succ, List.countP_cons]
    omega

theorem filterMap_set_same {α β : Type} (f : α → Option β) :
    ∀ (l : List α) (i : Nat) (p q : α), l.get? i = some p → f q = f p →
      (l.set i q).filterMap f = l.filterMap f
  | [], i, p, q, h, _ => by simp at h
  | x :: l, 0, p, q, h, hf => by
    simp only [List.get?_cons_zero, Option.some.injEq] at h
    subst h
    simp only [List.set_cons_zero, List.filterMap_cons, hf]
  | x :: l, i + 1, p, q, h, hf => by
    have ih := filterMap_set_same f l i p q (by simpa using h) hf
    simp only [List.set_cons_succ, List.filterMap_cons, ih]

theorem filterMap_set_new {α β : Type} (f : α → Option β) (b : β) :
    ∀ (l : List α) (i : Nat) (p q : α), l.get? i = some p → f p = none → f q = some b →
      ((l.set i q).filterMap f).Perm (b :: l.filterMap f)
  | [], i, p, q, h, _, _ => by simp at h
  | x :: l, 0, p, q, h, hp, hq => by
    simp only [List.get?_cons_zero, Option.some.injEq] at h
    subst h
    simp only [List.set_cons_zero, List.filterMap_cons, hp, hq]
    exact List.Perm.refl _
  | x :: l, i + 1, p, q, h, hp, hq => by
    have ih := filterMap_set_new f b l i p q (by simpa using h) hp hq
    simp only [List.set_cons_succ, List.filterMap_cons]
    cases f x with
    | none => exact ih
    | some y => exact (ih.cons y).trans (List.Perm.swap b y _)

theorem filterMap_length_of_isSome {α β : Type} (f : α → Option β) :
    ∀ l : List α, (∀ x ∈ l, (f x).isSome = true) → (l.filterMap f).length = l.length
  | [], _ => rfl
  | x :: l, h => by
    have hx := h x (List.mem_cons_self x l)
    have ih := filterMap_length_of_isSome f l (fun y hy => h y (List.mem_cons_of_mem x hy))
    cases hfx : f x with
    | none => rw [hfx] at hx; simp at hx
    | some y => simp only [List.filterMap_cons, hfx, List.length_cons, ih]

/-! ## Steps of the pool -/

theorem Pool.step_of_none (s : Pool) (i : Nat) (h : s.threads.get? i = none) :
    s.step i = s := by
  unfold Pool.step; rw [h]

theorem Pool.step_of_some (s : Pool) (i : Nat) (p : Phase) (h : s.threads.get? i = some p) :
    s.step i =
      { globals := (advance s.globals p).1,
        threads := s.threads.set i (advance s.globals p).2 } := by
  unfold Pool.step; rw [h]

theorem Pool.run_nil (s : Pool) : s.run [] = s := rfl

theorem Pool.run_cons (s : Pool) (i : Nat) (rest : List Nat) :
    s.run (i :: rest) = (s.step i).run rest := rfl

theorem Pool.run_append (s : Pool) (xs ys : List Nat) :
    s.run (xs ++ ys) = (s.run xs).run ys := by
  unfold Pool.run; rw [List.foldl_append]

theorem Pool.step_threads_length (s : Pool) (i : Nat) :
    (s.step i).threads.length = s.threads.length := by
  cases h : s.threads.get? i with
  | none => rw [Pool.step_of_none s i h]
  | some p => rw [Pool.step_of_some s i p h]; exact List.length_set _ _ _

theorem Pool.run_threads_length (schedule : List Nat) :
    ∀ s : Pool, (s.run schedule).threads.length = s.threads.length := by
  induction schedule with
  | nil => intro s; rfl
  | cons i rest ih =>
    intro s
    rw [Pool.run_cons, ih, Pool.step_threads_length]

theorem Pool.step_activeInv (a₀ : Int) (s : Pool) (i : Nat) (h : s.ActiveInv a₀) :
    (s.step i).ActiveInv a₀ := by
  cases hget : s.threads.get? i with
  | none => rw [Pool.step_of_none s i hget]; exact h
  | some p =>
    rw [Pool.step_of_some s i p hget]
    unfold Pool.ActiveInv Pool.inFlight at *
    have hc := countP_set_of_get? Phase.inFlight s.threads i p (advance s.globals p).2 hget
    cases p with
    | pending =>
      simp only [advance, Phase.inFlight, rootEnter, atomicAddInt64] at hc ⊢
      rw [h, wrapInt64_add_wrap]
      congr 1
      simp only [Bool.false_eq_true, if_false, if_true] at hc
      omega
    | entered =>
      simp only [advance, Phase.inFlight, rootCount] at hc ⊢
      rw [h]
      congr 1
      simp only [if_true] at hc
      omega
    | counted count =>
      simp only [advance, Phase.inFlight, rootExit, atomicAddInt64] at hc ⊢
      rw [h, wrapInt64_add_wrap]
      congr 1
      simp only [Bool.false_eq_true, if_false, if_true] at hc
      omega
    | finished count =>
      simp only [advance, Phase.inFlight] at hc ⊢
      rw [h]
      congr 1
      simp only [Bool.false_eq_true, if_false] at hc
      omega

theorem Pool.run_activeInv (a₀ : Int) (schedule : List Nat) :
    ∀ s : Pool, s.ActiveInv a₀ → (s.run schedule).ActiveInv a₀ := by
  induction schedule with
  | nil => intro s h; exact h
  | cons i rest ih =>
    intro s h
    rw [Pool.run_cons]
    exact ih _ (Pool.step_activeInv a₀ s i h)

theorem seqNumber_range_succ (c₀ k : Nat) :
    ((List.range (k + 1)).map (seqNumber c₀)).Perm
      (seqNumber c₀ k :: (List.range k).map (seqNumber c₀)) := by
  rw [List.range_succ, List.map_append]
  exact List.perm_append_singleton _ _

theorem Pool.step_countInv (c₀ : Nat) (s : Pool) (i : Nat) (h : s.CountInv c₀) :
    (s.step i).CountInv c₀ := by
  cases hget : s.threads.get? i with
  | none => rw [Pool.step_of_none s i hget]; exact h
  | some p =>
    rw [Pool.step_of_some s i p hget]
    unfold Pool.CountInv Pool.issued at *
    obtain ⟨htotal, hperm⟩ := h
    cases p with
    | pending =>
      have hsame := filterMap_set_same Phase.count? s.threads i Phase.pending Phase.entered
        hget rfl
      simp only [advance, rootEnter]
      rw [hsame]
      exact ⟨htotal, hperm⟩
    | entered =>
      have hnew := filterMap_set_new Phase.count? (rootCount s.globals).2 s.threads i
        Phase.entered (Phase.counted (rootCount s.globals).2) hget rfl rfl
      have hlen := hnew.length_eq
      rw [List.length_cons] at hlen
      have hn : (rootCount s.globals).2 =
          seqNumber c₀ (s.threads.filterMap Phase.count?).length := by
        show (s.globals.requestCounter + 1) % 2 ^ 64 = _
        rw [htotal]
        unfold seqNumber
        omega
      simp only [advance]
      constructor
      · show (s.globals.requestCounter + 1) % 2 ^ 64 = _
        rw [hlen, htotal]
        omega
      · rw [hlen]
        refine hnew.trans ?_
        rw [hn]
        exact (hperm.cons _).trans (seqNumber_range_succ c₀ _).symm
    | counted count =>
      have hsame := filterMap_set_same Phase.count? s.threads i (Phase.counted count)
        (Phase.finished count) hget rfl
      simp only [advance, rootExit]
      rw [hsame]
      exact ⟨htotal, hperm⟩
    | finished count =>
      have hsame := filterMap_set_same Phase.count? s.threads i (Phase.finished count)
        (Phase.finished count) hget rfl
      simp only [advance]
      rw [hsame]
      exact ⟨htotal, hperm⟩

theorem Pool.run_countInv (c₀ : Nat) (schedule : List Nat) :
    ∀ s : Pool, s.CountInv c₀ → (s.run schedule).CountInv c₀ := by
  induction schedule with
  | nil => intro s h; exact h
  | cons i rest ih =>
    intro s h
    rw [Pool.run_cons]
    exact ih _ (Pool.step_countInv c₀ s i h)

/-! ## The pool at its start and at its end -/

theorem Pool.start_inFlight (g : Globals) (n : Nat) : (Pool.start g n).inFlight = 0 := by
  unfold Pool.start Pool.inFlight
  rw [List.countP_replicate]
  rfl

theorem Pool.start_issued (g : Globals) (n : Nat) : (Pool.start g n).issued = [] := by
  unfold Pool.start Pool.issued
  exact List.filterMap_replicate_of_none rfl

theorem Pool.start_activeInv (g : Globals) (n : Nat) (h₁ : -(2 ^ 63) ≤ g.activeRequests)
    (h₂ : g.activeRequests < 2 ^ 63) : (Pool.start g n).ActiveInv g.activeRequests := by
  unfold Pool.ActiveInv
  rw [Pool.start_inFlight]
  show g.activeRequests = wrapInt64 (g.activeRequests + ((0 : Nat) : Int))
  rw [Nat.cast_zero, Int.add_zero, wrapInt64_of_range h₁ h₂]

theorem Pool.start_countInv (g : Globals) (n : Nat) (h : g.requestCounter < 2 ^ 64) :
    (Pool.start g n).CountInv g.requestCounter := by
  unfold Pool.CountInv
  rw [Pool.start_issued]
  refine ⟨?_, List.Perm.refl _⟩
  show g.requestCounter = (g.requestCounter + 0) % 2 ^ 64
  omega

theorem Pool.issued_length_of_allFinished (s : Pool) (h : s.allFinished = true) :
    s.issued.length = s.threads.length := by
  unfold Pool.allFinished at h
  rw [List.all_eq_true] at h
  refine filterMap_length_of_isSome Phase.count? s.threads ?_
  intro x hx
  have hfin := h x hx
  cases x with
  | finished count => rfl
  | pending => simp [Phase.isFinished] at hfin
  | entered => simp [Phase.isFinished] at hfin
  | counted count => simp [Phase.isFinished] at hfin

theorem Pool.inFlight_of_allFinished (s : Pool) (h : s.allFinished = true) :
    s.inFlight = 0 := by
  unfold Pool.allFinished at h
  rw [List.all_eq_true] at h
  unfold Pool.inFlight
  rw [List.countP_eq_zero]
  intro x hx
  have hfin := h x hx
  cases x with
  | finished count => simp [Phase.inFlight]
  | pending => simp [Phase.isFinished] at hfin
  | entered => simp [Phase.isFinished] at hfin
  | counted count => simp [Phase.isFinished] at hfin

theorem Pool.inFlight_le (s : Pool) : s.inFlight ≤ s.threads.length :=
  List.countP_le_length _

theorem seqNumber_nodup (c₀ k : Nat) (hk : k ≤ 2 ^ 64) :
    ((List.range k).map (seqNumber c₀)).Nodup := by
  refine List.Nodup.map_on ?_ (List.nodup_range k)
  intro x hx y hy hxy
  rw [List.mem_range] at hx hy
  unfold seqNumber at hxy
  omega

theorem seqNumber_not_nodup (c₀ k : Nat) (hk : 2 ^ 64 < k) :
    ¬ ((List.range k).map (seqNumber c₀)).Nodup := by
  intro hnodup
  have hinj := List.inj_on_of_nodup_map hnodup (x := 0) (y := 2 ^ 64)
    (List.mem_range.2 (by omega)) (List.mem_range.2 hk)
    (by unfold seqNumber; omega)
  omega

/-! ## Two schedules -/

theorem get?_append_length {α : Type} (p : α) (post : List α) :
    ∀ pre : List α, (pre ++ p :: post).get? pre.length = some p
  | [] => rfl
  | x :: pre => by
    simpa using get?_append_length p post pre

theorem set_append_length {α : Type} (p q : α) (post : List α) :
    ∀ pre : List α, (pre ++ p :: post).set pre.length q = pre ++ q :: post
  | [] => rfl
  | x :: pre => by
    simp [set_append_length p q post pre]

theorem Pool.step_at_length (g : Globals) (pre post : List Phase) (p : Phase) :
    Pool.step ⟨g, pre ++ p :: post⟩ pre.length =
      ⟨(advance g p).1, pre ++ (advance g p).2 :: post⟩ := by
  rw [Pool.step_of_some _ _ p (get?_append_length p post pre)]
  show Pool.mk _ ((pre ++ p :: post).set pre.length _) = _
  rw [set_append_length]

theorem Pool.run_range_enters (g : Globals) (n : Nat) :
    ∀ k, k ≤ n →
      ((Pool.start g n).run (List.range k)).threads =
        List.replicate k Phase.entered ++ List.replicate (n - k) Phase.pending := by
  intro k
  induction k with
  | zero => intro _; rfl
  | succ k ih =>
    intro hk
    have ih' := ih (by omega)
    rw [List.range_succ, Pool.run_append]
    have hsplit : n - k = (n - (k + 1)) + 1 := by omega
    rw [hsplit, List.replicate_succ] at ih'
    have hlen : (List.replicate k Phase.entered).length = k := List.length_replicate _ _
    cases hs : (Pool.start g n).run (List.range k) with
    | mk gk threads =>
      rw [hs] at ih'
      simp only at ih'
      subst ih'
      rw [Pool.run_cons, Pool.run_nil]
      have hstep := Pool.step_at_length gk (List.replicate k Phase.entered)
        (List.replicate (n - (k + 1)) Phase.pending) Phase.pending
      rw [hlen] at hstep
      rw [hstep]
      show List.replicate k Phase.entered ++
        Phase.entered :: List.replicate (n - (k + 1)) Phase.pending = _
      rw [List.replicate_add k 1, List.append_assoc]
      rfl

theorem Pool.run_range_inFlight (g : Globals) (n : Nat) :
    ((Pool.start g n).run (List.range n)).inFlight = n := by
  unfold Pool.inFlight
  rw [Pool.run_range_enters g n n (le_refl n), List.countP_append, List.countP_replicate,
    List.countP_replicate]
  simp [Phase.inFlight]

theorem sequentialSchedule_succ (k : Nat) :
    sequentialSchedule (k + 1) = sequentialSchedule k ++ [k, k, k] := by
  unfold sequentialSchedule
  rw [List.range_succ, List.flatMap_append]
  rfl

theorem Pool.run_sequential_threads (g : Globals) (n : Nat) :
    ∀ k, k ≤ n →
      ∃ counts : List Nat, counts.length = k ∧
        ((Pool.start g n).run (sequentialSchedule k)).threads =
          counts.map Phase.finished ++ List.replicate (n - k) Phase.pending := by
  intro k
  induction k with
  | zero => intro _; exact ⟨[], rfl, rfl⟩
  | succ k ih =>
    intro hk
    obtain ⟨counts, hlen, hthreads⟩ := ih (by omega)
    have hsplit : n - k = (n - (k + 1)) + 1 := by omega
    rw [hsplit, List.replicate_succ] at hthreads
    have hpre : (counts.map Phase.finished).length = k := by
      rw [List.length_map, hlen]
    rw [sequentialSchedule_succ, Pool.run_append]
    cases hs : (Pool.start g n).run (sequentialSchedule k) with
    | mk gk threads =>
      rw [hs] at hthreads
      simp only at hthreads
      subst hthreads
      have h₁ := Pool.step_at_length gk (counts.map Phase.finished)
        (List.replicate (n - (k + 1)) Phase.pending) Phase.pending
      have h₂ := Pool.step_at_length (advance gk Phase.pending).1 (counts.map Phase.finished)
        (List.replicate (n - (k + 1)) Phase.pending) Phase.entered
      have h₃ := Pool.step_at_length (rootCount (rootEnter gk)).1 (counts.map Phase.finished)
        (List.replicate (n - (k + 1)) Phase.pending)
        (Phase.counted (rootCount (rootEnter gk)).2)
      rw [hpre] at h₁ h₂ h₃
      refine ⟨counts ++ [(rootCount (rootEnter gk)).2], ?_, ?_⟩
      · rw [List.length_append, hlen]; rfl
      · rw [Pool.run_cons, Pool.run_cons, Pool.run_cons, Pool.run_nil, h₁]
        simp only [advance] at h₂ h₃ ⊢
        rw [h₂, h₃]
        simp only [List.map_append, List.map_cons, List.map_nil, List.append_assoc,
          List.singleton_append]

theorem Pool.run_sequential_allFinished (g : Globals) (n : Nat) :
    ((Pool.start g n).run (sequentialSchedule n)).allFinished = true := by
  obtain ⟨counts, -, hthreads⟩ := Pool.run_sequential_threads g n n (le_refl n)
  unfold Pool.allFinished
  rw [hthreads, Nat.sub_self, List.replicate_zero, List.append_nil, List.all_eq_true]
  intro x hx
  rw [List.mem_map] at hx
  obtain ⟨count, -, rfl⟩ := hx
  rfl

/-! ## Concurrent invocations -/

theorem Pool.run_single_eq_rootHandler (version : GoString) (g : Globals) (c : RootCall) :
    ((Pool.start g 1).run [0, 0, 0]).globals = (rootHandler version g c).1 ∧
    ((Pool.start g 1).run [0, 0, 0]).threads =
      [Phase.finished (rootHandler version g c).2.reply.body.Requests] :=
  ⟨rfl, rfl⟩

/-- C4 as stated fails when the `uint64` counter is at its largest value before the calls:
two interleaved invocations starting from `requestCounter = 2^64 - 1` both return, they
obtain the sequence numbers 0 and 1, and the final counter is 1, not `2^64 - 1 + 2`. -/
theorem C4_final_counter_wraps :
    ((Pool.start ⟨2 ^ 64 - 1, 0⟩ 2).run [0, 1, 1, 0, 0, 1]).allFinished = true ∧
    ((Pool.start ⟨2 ^ 64 - 1, 0⟩ 2).run [0, 1, 1, 0, 0, 1]).issued = [1, 0] ∧
    ((Pool.start ⟨2 ^ 64 - 1, 0⟩ 2).run [0, 1, 1, 0, 0, 1]).globals.requestCounter = 1 ∧
    ((Pool.start ⟨2 ^ 64 - 1, 0⟩ 2).run [0, 1, 1, 0, 0, 1]).globals.requestCounter
      ≠ (2 ^ 64 - 1) + 2 := by
  decide

/-- C4, amended: for every `n`, every `uint64` value of the counter before the calls and
every interleaving of the atomic operations of `n` concurrent invocations of `rootHandler`,
once all of them have returned each has obtained a sequence number and the final counter is
its value before the calls plus `n`, reduced modulo 2^64 (so exactly the value before plus
`n` whenever that sum is below 2^64). At every moment of every interleaving the sequence
numbers handed out so far are pairwise distinct provided `n ≤ 2^64`; with more than 2^64
invocations they cannot all be distinct. Interleavings in which all `n` invocations return
exist for every `n`. -/
theorem C4_concurrent_sequence_numbers (g : Globals) (n : Nat) (schedule : List Nat)
    (hg : g.requestCounter < 2 ^ 64) :
    (((Pool.start g n).run schedule).allFinished = true →
      ((Pool.start g n).run schedule).issued.length = n ∧
      ((Pool.start g n).run schedule).globals.requestCounter =
        (g.requestCounter + n) % 2 ^ 64) ∧
    (((Pool.start g n).run schedule).allFinished = true → g.requestCounter + n < 2 ^ 64 →
      ((Pool.start g n).run schedule).globals.requestCounter = g.requestCounter + n) ∧
    (n ≤ 2 ^ 64 → ((Pool.start g n).run schedule).issued.Nodup) ∧
    (((Pool.start g n).run schedule).allFinished = true → 2 ^ 64 < n →
      ¬ ((Pool.start g n).run schedule).issued.Nodup) ∧
    ((Pool.start g n).run (sequentialSchedule n)).allFinished = true := by
  obtain ⟨htotal, hperm⟩ := Pool.run_countInv g.requestCounter schedule _
    (Pool.start_countInv g n hg)
  have hthreads : ((Pool.start g n).run schedule).threads.length = n := by
    rw [Pool.run_threads_length]
    exact List.length_replicate _ _
  have hle : ((Pool.start g n).run schedule).issued.length ≤ n :=
    (List.length_filterMap_le Phase.count? _).trans hthreads.le
  have hfin : ((Pool.start g n).run schedule).allFinished = true →
      ((Pool.start g n).run schedule).issued.length = n := by
    intro h
    rw [Pool.issued_length_of_allFinished _ h, hthreads]
  refine ⟨?_, ?_, ?_, ?_, Pool.run_sequential_allFinished g n⟩
  · intro h
    refine ⟨hfin h, ?_⟩
    rw [htotal, hfin h]
  · intro h hsum
    rw [htotal, hfin h]
    omega
  · intro hn
    exact (hperm.nodup_iff).2 (seqNumber_nodup _ _ (by omega))
  · intro h hn hnodup
    have hnodup' := (hperm.nodup_iff).1 hnodup
    rw [hfin h] at hnodup'
    exact seqNumber_not_nodup _ _ hn hnodup'

/-- C4, amended, on three invocations interleaved from a counter value of 5: all return,
the final counter is 8 and the sequence numbers 6, 7, 8 are handed out once each. -/
theorem C4_concurrent_witness :
    ((Pool.start ⟨5, 0⟩ 3).run [0, 1, 2, 2, 1, 0, 1, 0, 2]).issued.length = 3 ∧
    ((Pool.start ⟨5, 0⟩ 3).run [0, 1, 2, 2, 1, 0, 1, 0, 2]).globals.requestCounter = 5 + 3 ∧
    ((Pool.start ⟨5, 0⟩ 3).run [0, 1, 2, 2, 1, 0, 1, 0, 2]).issued.Nodup ∧
    ((Pool.start ⟨5, 0⟩ 3).run [0, 1, 2, 2, 1, 0, 1, 0, 2]).issued = [8, 7, 6] :=
  ⟨((C4_concurrent_sequence_numbers ⟨5, 0⟩ 3 [0, 1, 2, 2, 1, 0, 1, 0, 2] (by decide)).1
      (by decide)).1,
   (C4_concurrent_sequence_numbers ⟨5, 0⟩ 3 [0, 1, 2, 2, 1, 0, 1, 0, 2] (by decide)).2.1
      (by decide) (by decide),
   (C4_concurrent_sequence_numbers ⟨5, 0⟩ 3 [0, 1, 2, 2, 1, 0, 1, 0, 2] (by decide)).2.2.1
      (by decide),
   by decide⟩

/-- Where the bound of the next theorem comes from: a pool of the model is a list of any
length, and with 2^63 invocations between their entry and their exit, more than a process
can hold, the `int64` arithmetic of `activeRequests` gives `-2^63`. -/
theorem Pool.activeRequests_at_int64_bound :
    ((Pool.start Globals.fresh (2 ^ 63)).run (List.range (2 ^ 63))).inFlight = 2 ^ 63 ∧
    ((Pool.start Globals.fresh (2 ^ 63)).run (List.range (2 ^ 63))).globals.activeRequests
      = -(2 ^ 63) ∧
    ((Pool.start Globals.fresh (2 ^ 63)).run (List.range (2 ^ 63))).globals.activeRequests
      < 0 := by
  have hinv := Pool.run_activeInv 0 (List.range (2 ^ 63)) _
    (Pool.start_activeInv Globals.fresh (2 ^ 63) (by decide) (by decide))
  unfold Pool.ActiveInv at hinv
  rw [Pool.run_range_inFlight] at hinv
  have hval : wrapInt64 (0 + ((2 ^ 63 : Nat) : Int)) = -(2 ^ 63) := by
    unfold wrapInt64
    norm_num
  rw [hval] at hinv
  refine ⟨Pool.run_range_inFlight _ _, hinv, ?_⟩
  rw [hinv]
  norm_num

/-- C5: in every state reachable from the initial state (`activeRequests = 0`, no
invocation started) by the entry steps (line 61) and exit steps (deferred line 62) of any
number of invocations of `rootHandler` under any schedule, `activeRequests` equals the
number of invocations that have entered and not yet exited, and hence is not negative,
as long as fewer than 2^63 invocations are in flight at that moment, which is so in every
state a process can be in (and for every pool of fewer than 2^63 invocations); whenever no
invocation is in flight, in particular once every started invocation has exited, it is 0,
its value before the invocations began. In general it is the in-flight number reduced to
the range of `int64`. -/
theorem C5_active_requests_counts_in_flight (c₀ n : Nat) (schedule : List Nat) :
    ((Pool.start ⟨c₀, 0⟩ n).run schedule).globals.activeRequests =
      wrapInt64 ((Pool.start ⟨c₀, 0⟩ n).run schedule).inFlight ∧
    (((Pool.start ⟨c₀, 0⟩ n).run schedule).inFlight < 2 ^ 63 →
      ((Pool.start ⟨c₀, 0⟩ n).run schedule).globals.activeRequests =
        ((Pool.start ⟨c₀, 0⟩ n).run schedule).inFlight ∧
      0 ≤ ((Pool.start ⟨c₀, 0⟩ n).run schedule).globals.activeRequests) ∧
    (n < 2 ^ 63 →
      ((Pool.start ⟨c₀, 0⟩ n).run schedule).globals.activeRequests =
        ((Pool.start ⟨c₀, 0⟩ n).run schedule).inFlight) ∧
    (((Pool.start ⟨c₀, 0⟩ n).run schedule).inFlight = 0 →
      ((Pool.start ⟨c₀, 0⟩ n).run schedule).globals.activeRequests = 0) ∧
    (((Pool.start ⟨c₀, 0⟩ n).run schedule).allFinished = true →
      ((Pool.start ⟨c₀, 0⟩ n).run schedule).globals.activeRequests = 0) := by
  have hinv := Pool.run_activeInv 0 schedule _
    (Pool.start_activeInv ⟨c₀, 0⟩ n (show -(2 ^ 63) ≤ (0 : Int) by decide)
      (show (0 : Int) < 2 ^ 63 by decide))
  unfold Pool.ActiveInv at hinv
  rw [Int.zero_add] at hinv
  have hle : ((Pool.start ⟨c₀, 0⟩ n).run schedule).inFlight ≤ n := by
    have h := Pool.inFlight_le ((Pool.start ⟨c₀, 0⟩ n).run schedule)
    rw [Pool.run_threads_length] at h
    exact h.trans (List.length_replicate _ _).le
  have hsmall : ((Pool.start ⟨c₀, 0⟩ n).run schedule).inFlight < 2 ^ 63 →
      ((Pool.start ⟨c₀, 0⟩ n).run schedule).globals.activeRequests =
        ((Pool.start ⟨c₀, 0⟩ n).run schedule).inFlight := by
    intro h
    rw [hinv]
    exact wrapInt64_of_range (by omega) (by omega)
  have hzero : ((Pool.start ⟨c₀, 0⟩ n).run schedule).inFlight = 0 →
      ((Pool.start ⟨c₀, 0⟩ n).run schedule).globals.activeRequests = 0 := by
    intro h
    rw [hsmall (by omega), h]
    rfl
  refine ⟨hinv, ?_, ?_, hzero, ?_⟩
  · intro h
    refine ⟨hsmall h, ?_⟩
    rw [hsmall h]
    exact Int.natCast_nonneg _
  · intro h
    exact hsmall (by omega)
  · intro h
    exact hzero (Pool.inFlight_of_allFinished _ h)

/-- C5 on three invocations: with two of them between entry and exit the counter
is 2, and once all three have exited it is 0. -/
theorem C5_active_requests_witness :
    (((Pool.start Globals.fresh 3).run [0, 1, 1, 2, 2, 2]).globals.activeRequests = 2 ∧
      ((Pool.start Globals.fresh 3).run [0, 1, 1, 2, 2, 2]).inFlight = 2) ∧
    ((Pool.start Globals.fresh 3).run [0, 1, 1, 2, 2, 2, 0, 1, 0]).globals.activeRequests
      = 0 :=
  ⟨⟨((C5_active_requests_counts_in_flight 0 3 [0, 1, 1, 2, 2, 2]).2.1 (by decide)).1.trans
      (by decide), by decide⟩,
   (C5_active_requests_counts_in_flight 0 3 [0, 1, 1, 2, 2, 2, 0, 1, 0]).2.2.2.2
      (by decide)⟩

end BlueGreen
